import Mathlib

/-!
Verification of the mquickjs relocatable-bytecode container, loader and
hardware-binding layer.  Definitions are shallow embeddings of the C sources
(`emscripten_wrapper.c`, the stdlib-export translation units, `freebutton_led.c`,
the sensor bindings); external library routines that the sources call but do not
define (the ESP-IDF CRC, the engine's relocation internals, the container header
layout from `mquickjs.h`) are modelled from the specification and marked as such.
-/

/-! ## CRC-32 checksum (integrity gate)

The loader calls `esp_crc32_le(0, data, size)` (ESP-IDF).  That routine is the
standard reflected CRC-32 (polynomial 0xEDB88320, initial value 0xFFFFFFFF,
final complement), processed bit by bit below. -/

/-- Reflected CRC-32 generator polynomial used by `esp_crc32_le`. -/
def CRC32_POLY : Nat := 0xEDB88320

/-- One bit-step of the reflected CRC-32 update: shift right, conditionally
xor the polynomial when the low bit is set. -/
def crcBit (c : Nat) : Nat :=
  if c % 2 = 1 then (c / 2) ^^^ CRC32_POLY else c / 2

/-- Inverse of `crcBit` on 32-bit states (the polynomial's top bit records the
shifted-out low bit). -/
def crcBitInv (o : Nat) : Nat :=
  if o.testBit 31 = true then ((o ^^^ CRC32_POLY) * 2 + 1) else o * 2

theorem crcBit_lt {c : Nat} (h : c < 2 ^ 32) : crcBit c < 2 ^ 32 := by
  unfold crcBit
  split
  · exact Nat.xor_lt_two_pow (by omega) (by decide)
  · omega

theorem crcBitInv_crcBit {c : Nat} (h : c < 2 ^ 32) : crcBitInv (crcBit c) = c := by
  unfold crcBit crcBitInv
  by_cases hodd : c % 2 = 1
  · rw [if_pos hodd]
    have hdiv : c / 2 < 2 ^ 31 := by omega
    have hpolybit : CRC32_POLY.testBit 31 = true := by decide
    have hbit : ((c / 2) ^^^ CRC32_POLY).testBit 31 = true := by
      rw [Nat.testBit_xor, Nat.testBit_lt_two_pow hdiv, hpolybit]
      rfl
    rw [if_pos hbit, Nat.xor_assoc, Nat.xor_self, Nat.xor_zero]
    omega
  · rw [if_neg hodd]
    have hdiv : c / 2 < 2 ^ 31 := by omega
    have hbit : (c / 2).testBit 31 = false := Nat.testBit_lt_two_pow hdiv
    rw [if_neg (by simp [hbit])]
    omega

theorem crcBit_inj {a b : Nat} (ha : a < 2 ^ 32) (hb : b < 2 ^ 32)
    (h : crcBit a = crcBit b) : a = b := by
  have h2 := congrArg crcBitInv h
  rwa [crcBitInv_crcBit ha, crcBitInv_crcBit hb] at h2

/-- `n` bit-steps of the CRC update. -/
def crcSteps : Nat → Nat → Nat
  | 0, c => c
  | n + 1, c => crcSteps n (crcBit c)

theorem crcSteps_lt {c : Nat} (n : Nat) (h : c < 2 ^ 32) : crcSteps n c < 2 ^ 32 := by
  induction n generalizing c with
  | zero => exact h
  | succ n ih => exact ih (crcBit_lt h)

theorem crcSteps_inj {a b : Nat} (n : Nat) (ha : a < 2 ^ 32) (hb : b < 2 ^ 32)
    (h : crcSteps n a = crcSteps n b) : a = b := by
  induction n generalizing a b with
  | zero => exact h
  | succ n ih => exact crcBit_inj ha hb (ih (crcBit_lt ha) (crcBit_lt hb) h)

/-- One byte-step of the CRC update: xor the byte into the state, then run
eight bit-steps. -/
def crc32_byte_update (c b : Nat) : Nat := crcSteps 8 (c ^^^ b)

theorem xor_right_cancel {a b c : Nat} (h : a ^^^ c = b ^^^ c) : a = b := by
  have h2 := congrArg (fun x => x ^^^ c) h
  simpa [Nat.xor_assoc] using h2

theorem crc32_byte_update_lt {c b : Nat} (hc : c < 2 ^ 32) (hb : b < 2 ^ 32) :
    crc32_byte_update c b < 2 ^ 32 :=
  crcSteps_lt 8 (Nat.xor_lt_two_pow hc hb)

theorem crc32_byte_update_inj_state {c₁ c₂ b : Nat} (h1 : c₁ < 2 ^ 32)
    (h2 : c₂ < 2 ^ 32) (hb : b < 2 ^ 32)
    (h : crc32_byte_update c₁ b = crc32_byte_update c₂ b) : c₁ = c₂ := by
  have hx := crcSteps_inj 8 (Nat.xor_lt_two_pow h1 hb) (Nat.xor_lt_two_pow h2 hb) h
  exact xor_right_cancel hx

theorem crc32_byte_update_inj_byte {c b₁ b₂ : Nat} (hc : c < 2 ^ 32)
    (h1 : b₁ < 2 ^ 32) (h2 : b₂ < 2 ^ 32) (hne : b₁ ≠ b₂) :
    crc32_byte_update c b₁ ≠ crc32_byte_update c b₂ := by
  intro h
  have hx := crcSteps_inj 8 (Nat.xor_lt_two_pow hc h1) (Nat.xor_lt_two_pow hc h2) h
  exact hne (xor_right_cancel (by rwa [Nat.xor_comm c b₁, Nat.xor_comm c b₂] at hx))

/-- Run the CRC byte-step over a list of bytes. -/
def crc32_run (c : Nat) : List Nat → Nat
  | [] => c
  | b :: l => crc32_run (crc32_byte_update c b) l

theorem crc32_run_append (c : Nat) (l₁ l₂ : List Nat) :
    crc32_run c (l₁ ++ l₂) = crc32_run (crc32_run c l₁) l₂ := by
  induction l₁ generalizing c with
  | nil => rfl
  | cons b l ih => exact ih (crc32_byte_update c b)

theorem crc32_run_lt {c : Nat} {l : List Nat} (hc : c < 2 ^ 32)
    (hl : ∀ x ∈ l, x < 2 ^ 32) : crc32_run c l < 2 ^ 32 := by
  induction l generalizing c with
  | nil => exact hc
  | cons b l ih =>
      exact ih (crc32_byte_update_lt hc (hl b (by simp)))
        (fun x hx => hl x (by simp [hx]))

theorem crc32_run_inj {c₁ c₂ : Nat} {l : List Nat} (h1 : c₁ < 2 ^ 32)
    (h2 : c₂ < 2 ^ 32) (hl : ∀ x ∈ l, x < 2 ^ 32)
    (h : crc32_run c₁ l = crc32_run c₂ l) : c₁ = c₂ := by
  induction l generalizing c₁ c₂ with
  | nil => exact h
  | cons b l ih =>
      have hb : b < 2 ^ 32 := hl b (by simp)
      have := ih (crc32_byte_update_lt h1 hb) (crc32_byte_update_lt h2 hb)
        (fun x hx => hl x (by simp [hx])) h
      exact crc32_byte_update_inj_state h1 h2 hb this

/-- Modelled from the spec: `esp_crc32_le` (ESP-IDF, not part of this
repository) — the checksum the loader computes over the mapped bytes; standard
little-endian (reflected) CRC-32 with complemented initial and final state. -/
def esp_crc32_le (init : Nat) (data : List Nat) : Nat :=
  (crc32_run (init ^^^ 0xFFFFFFFF) data) ^^^ 0xFFFFFFFF

/-- CRC-32 detects every single-byte difference between two equal-length
byte sequences. -/
theorem esp_crc32_le_single_byte_diff (pre suf : List Nat) (b₁ b₂ : Nat)
    (hpre : ∀ x ∈ pre, x < 2 ^ 32) (hsuf : ∀ x ∈ suf, x < 2 ^ 32)
    (h1 : b₁ < 2 ^ 32) (h2 : b₂ < 2 ^ 32) (hne : b₁ ≠ b₂) :
    esp_crc32_le 0 (pre ++ b₁ :: suf) ≠ esp_crc32_le 0 (pre ++ b₂ :: suf) := by
  intro h
  unfold esp_crc32_le at h
  have hstart : (0 ^^^ 0xFFFFFFFF : Nat) < 2 ^ 32 := by decide
  have hs : crc32_run (0 ^^^ 0xFFFFFFFF) pre < 2 ^ 32 := crc32_run_lt hstart hpre
  have hrun := xor_right_cancel h
  rw [crc32_run_append, crc32_run_append] at hrun
  have hmid : crc32_run (crc32_run (0 ^^^ 0xFFFFFFFF) pre) (b₁ :: suf)
      = crc32_run (crc32_run (0 ^^^ 0xFFFFFFFF) pre) (b₂ :: suf) := hrun
  have hstep : crc32_byte_update (crc32_run (0 ^^^ 0xFFFFFFFF) pre) b₁
      = crc32_byte_update (crc32_run (0 ^^^ 0xFFFFFFFF) pre) b₂ := by
    exact crc32_run_inj (crc32_byte_update_lt hs h1) (crc32_byte_update_lt hs h2) hsuf hmid
  exact crc32_byte_update_inj_byte hs h1 h2 hne hstep

/-! ## Mapped-file loader for named user bytecode (`js_loadUserBytecode`)

Shallow embedding of `js_loadUserBytecode` (stdlib export translation unit,
non-EMSCRIPTEN branch).  The environment captures the results of the external
calls the function makes (`bytecode_registry_find`, `file_hw_mmap`,
`JS_IsBytecode`, `JS_LoadBytecode`) plus the mapped bytes and addresses; the
function itself is the exact branch structure of the C code.  The result
records the outcome, the ordered trace of externally visible actions, and
whether `file_hw_munmap` released the mapping. -/

/-- Modelled from the spec: `sizeof(JSBytecodeHeader)` — the fixed-size
container header declared in `mquickjs.h` (not part of this repository);
only its positivity and fixed size matter here. -/
def JS_HDR_SIZE : Nat := 16

/-- Externally visible actions of a named-bytecode load, in program order. -/
inductive LoadEvent where
  | findEntry
  | mmapFile
  | checksumCheck
  | formatCheck
  | baseAddrCheck
  | relocateCopy
  | loadBytecode
  | munmapFile
  deriving DecidableEq

/-- Outcome of `js_loadUserBytecode`: either the engine received the buffer at
the given resident address, or a thrown error. -/
inductive LoadOutcome where
  | loaded (addr : Nat)
  | errNotFound
  | errMmap
  | errChecksum
  | errFormat
  | errRelocMismatch
  | errLoadException
  deriving DecidableEq

/-- Results of the external calls made by `js_loadUserBytecode`, together with
the mapped region's contents and resident address. -/
structure LoaderEnv where
  found : Bool
  entryChecksum : Nat
  mapOk : Bool
  mappedAddr : Nat
  mappedBytes : List Nat
  headerBaseAddr : Nat
  formatOk : Bool
  loadOk : Bool

structure LoadResult where
  outcome : LoadOutcome
  events : List LoadEvent
  mappingReleased : Bool
  deriving DecidableEq

/-- Shallow embedding of `js_loadUserBytecode`: registry lookup, mmap, CRC-32
verification against the registry checksum, `JS_IsBytecode` format check,
`base_addr == mapped->data + sizeof(JSBytecodeHeader)` relocation-validity
check, then a direct `JS_LoadBytecode` on the mapped buffer.  Every
post-mapping failure unmaps; no branch relocates or copies. -/
def js_loadUserBytecode (env : LoaderEnv) : LoadResult :=
  if env.found = false then
    ⟨.errNotFound, [.findEntry], false⟩
  else if env.mapOk = false then
    ⟨.errMmap, [.findEntry, .mmapFile], false⟩
  else if esp_crc32_le 0 env.mappedBytes ≠ env.entryChecksum then
    ⟨.errChecksum, [.findEntry, .mmapFile, .checksumCheck, .munmapFile], true⟩
  else if env.formatOk = false then
    ⟨.errFormat, [.findEntry, .mmapFile, .checksumCheck, .formatCheck, .munmapFile], true⟩
  else if env.headerBaseAddr ≠ env.mappedAddr + JS_HDR_SIZE then
    ⟨.errRelocMismatch,
      [.findEntry, .mmapFile, .checksumCheck, .formatCheck, .baseAddrCheck, .munmapFile], true⟩
  else if env.loadOk = false then
    ⟨.errLoadException,
      [.findEntry, .mmapFile, .checksumCheck, .formatCheck, .baseAddrCheck, .loadBytecode,
        .munmapFile], true⟩
  else
    ⟨.loaded env.mappedAddr,
      [.findEntry, .mmapFile, .checksumCheck, .formatCheck, .baseAddrCheck, .loadBytecode], false⟩

/-- Concrete load environment whose header `base_addr` equals the mapped
buffer's resident address (4096), with checksum and format checks passing. -/
def c1EnvBaseEqBuffer : LoaderEnv :=
  { found := true, entryChecksum := esp_crc32_le 0 [1, 2, 3], mapOk := true,
    mappedAddr := 4096, mappedBytes := [1, 2, 3], headerBaseAddr := 4096,
    formatOk := true, loadOk := true }

/-- Concrete load environment whose header `base_addr` (0) differs from the
buffer's resident address, with checksum and format checks passing. -/
def c1EnvBaseDiffers : LoaderEnv :=
  { found := true, entryChecksum := esp_crc32_le 0 [1, 2, 3], mapOk := true,
    mappedAddr := 4096, mappedBytes := [1, 2, 3], headerBaseAddr := 0,
    formatOk := true, loadOk := true }

/-- C1 is false as stated, at two concrete loads: when the header's
`base_addr` equals the buffer's resident address (4096) the loader does not
hand the mapped buffer to the engine but fails with a relocation-mismatch
error (the code compares `base_addr` against the resident address plus the
header size); and when `base_addr` differs from the resident address the
loader does not relocate into a fresh writable copy — it fails with the same
error, performing no relocation and no bytecode load. -/
theorem js_loadUserBytecode_c1_counterexample :
    ((js_loadUserBytecode c1EnvBaseEqBuffer).outcome = .errRelocMismatch ∧
      (js_loadUserBytecode c1EnvBaseEqBuffer).outcome ≠ .loaded c1EnvBaseEqBuffer.mappedAddr) ∧
    ((js_loadUserBytecode c1EnvBaseDiffers).outcome = .errRelocMismatch ∧
      LoadEvent.relocateCopy ∉ (js_loadUserBytecode c1EnvBaseDiffers).events ∧
      LoadEvent.loadBytecode ∉ (js_loadUserBytecode c1EnvBaseDiffers).events) := by
  decide

/-- C1 (amended): for every load of a named, registered container that passes
the checksum and format checks, if the header's recorded `base_addr` equals
the mapped data's resident address plus the header size the loader skips
relocation entirely and hands the mapped buffer directly to the execution
engine (zero-copy, no relocation or copy event); if `base_addr` differs from
that expected value, the loader performs no relocation at all and fails with
a relocation-mismatch error, releasing the mapping (the user must re-upload). -/
theorem js_loadUserBytecode_zero_copy_fast_path (env : LoaderEnv)
    (hf : env.found = true) (hm : env.mapOk = true)
    (hck : esp_crc32_le 0 env.mappedBytes = env.entryChecksum)
    (hfmt : env.formatOk = true) :
    (env.headerBaseAddr = env.mappedAddr + JS_HDR_SIZE → env.loadOk = true →
      js_loadUserBytecode env =
        ⟨.loaded env.mappedAddr,
          [.findEntry, .mmapFile, .checksumCheck, .formatCheck, .baseAddrCheck, .loadBytecode],
          false⟩) ∧
    (env.headerBaseAddr ≠ env.mappedAddr + JS_HDR_SIZE →
      js_loadUserBytecode env =
        ⟨.errRelocMismatch,
          [.findEntry, .mmapFile, .checksumCheck, .formatCheck, .baseAddrCheck, .munmapFile],
          true⟩) := by
  unfold js_loadUserBytecode
  rw [if_neg (by simp [hf]), if_neg (by simp [hm]), if_neg (by simp [hck]),
    if_neg (by simp [hfmt])]
  constructor
  · intro hbase hload
    rw [if_neg (by simp [hbase]), if_neg (by simp [hload])]
  · intro hbase
    rw [if_pos hbase]

theorem js_loadUserBytecode_zero_copy_fast_path_witness :
    js_loadUserBytecode
        { found := true, entryChecksum := esp_crc32_le 0 [7], mapOk := true,
          mappedAddr := 100, mappedBytes := [7], headerBaseAddr := 116,
          formatOk := true, loadOk := true } =
      ⟨.loaded 100,
        [.findEntry, .mmapFile, .checksumCheck, .formatCheck, .baseAddrCheck, .loadBytecode],
        false⟩ :=
  (js_loadUserBytecode_zero_copy_fast_path _ rfl rfl rfl rfl).1 rfl rfl

/-- C2: loading a stored container whose bytes suffered a single-byte
corruption fails with the checksum-mismatch error, and the checksum
comparison is the first verification step after mapping: the event trace is
exactly lookup, mmap, checksum check, unmap — no relocation and no bytecode
load is ever attempted. -/
theorem js_loadUserBytecode_integrity_gate (env : LoaderEnv) (orig : List Nat)
    (i : Nat) (b' : Nat) (hi : i < orig.length)
    (horig : ∀ x ∈ orig, x < 256) (hb' : b' < 256)
    (hne : b' ≠ orig.get ⟨i, hi⟩)
    (hf : env.found = true) (hm : env.mapOk = true)
    (hck : env.entryChecksum = esp_crc32_le 0 orig)
    (hcorrupt : env.mappedBytes = orig.set i b') :
    js_loadUserBytecode env =
      ⟨.errChecksum, [.findEntry, .mmapFile, .checksumCheck, .munmapFile], true⟩ := by
  have hdecomp : orig = orig.take i ++ orig.get ⟨i, hi⟩ :: orig.drop (i + 1) := by
    conv_lhs => rw [← List.take_append_drop i orig]
    congr 1
    rw [List.get_eq_getElem]
    exact (List.getElem_cons_drop orig i hi).symm
  have hset : orig.set i b' = orig.take i ++ b' :: orig.drop (i + 1) :=
    List.set_eq_take_cons_drop b' hi
  have hcrcne : esp_crc32_le 0 env.mappedBytes ≠ env.entryChecksum := by
    rw [hcorrupt, hck, hset]
    conv_rhs => rw [hdecomp]
    refine esp_crc32_le_single_byte_diff _ _ _ _ ?_ ?_ ?_ ?_ ?_
    · intro x hx
      have := horig x (List.take_subset i orig hx)
      omega
    · intro x hx
      have := horig x (List.drop_subset (i + 1) orig hx)
      omega
    · omega
    · have := horig _ (List.get_mem orig i hi)
      omega
    · exact hne
  unfold js_loadUserBytecode
  rw [if_neg (by simp [hf]), if_neg (by simp [hm]), if_pos hcrcne]

theorem js_loadUserBytecode_integrity_gate_witness :
    js_loadUserBytecode
        { found := true, entryChecksum := esp_crc32_le 0 [10, 20], mapOk := true,
          mappedAddr := 0, mappedBytes := [11, 20], headerBaseAddr := 0,
          formatOk := true, loadOk := true } =
      ⟨.errChecksum, [.findEntry, .mmapFile, .checksumCheck, .munmapFile], true⟩ :=
  js_loadUserBytecode_integrity_gate _ [10, 20] 0 11 (by decide) (by decide)
    (by decide) (by decide) rfl rfl rfl (by decide)

/-- C8: for every load attempt of a named container that was successfully
mapped, the mapping is retained exactly when the load fully succeeds; every
failure after mapping (checksum, format, relocation-validity, or bytecode
load) releases the mapping, and the release (`file_hw_munmap`) appears in the
event trace before the function returns. -/
theorem js_loadUserBytecode_releases_mapping_on_failure (env : LoaderEnv)
    (hf : env.found = true) (hm : env.mapOk = true) :
    ((js_loadUserBytecode env).mappingReleased = false ↔
      (js_loadUserBytecode env).outcome = .loaded env.mappedAddr) ∧
    ((js_loadUserBytecode env).mappingReleased = true →
      LoadEvent.munmapFile ∈ (js_loadUserBytecode env).events) := by
  unfold js_loadUserBytecode
  rw [if_neg (by simp [hf]), if_neg (by simp [hm])]
  split
  · simp
  · split
    · simp
    · split
      · simp
      · split
        · simp
        · simp

theorem js_loadUserBytecode_releases_mapping_on_failure_witness :
    LoadEvent.munmapFile ∈ (js_loadUserBytecode
        { found := true, entryChecksum := esp_crc32_le 0 [1], mapOk := true,
          mappedAddr := 0, mappedBytes := [1], headerBaseAddr := 16,
          formatOk := false, loadOk := true }).events :=
  (js_loadUserBytecode_releases_mapping_on_failure
      { found := true, entryChecksum := esp_crc32_le 0 [1], mapOk := true,
        mappedAddr := 0, mappedBytes := [1], headerBaseAddr := 16,
        formatOk := false, loadOk := true } rfl rfl).2 (by decide)

/-! ## Flat-buffer load path (`js_load`)

Shallow embedding of `js_load` (stdlib export translation unit,
non-EMSCRIPTEN branch): load the whole file into RAM, sniff
container-vs-source with `JS_IsBytecode`, then either relocate-and-load the
bytecode or parse-and-evaluate the raw source. -/

/-- Externally visible actions of the flat-buffer load path, in program
order. -/
inductive FlatLoadEvent where
  | relocate
  | loadBytecodeCall
  | evalSource
  | freeBuffer
  deriving DecidableEq

/-- Outcome of `js_load`: the value produced by the taken branch, or a thrown
error. -/
inductive FlatLoadOutcome where
  | loadedBytecode
  | evaluatedSource
  | errFileLoad
  | errReloc
  deriving DecidableEq

/-- Results of the external calls made by `js_load`: whether `file_hw_load`
produced a buffer, whether `JS_IsBytecode` recognised it as a container, and
whether `JS_RelocateBytecode` succeeded. -/
structure FlatEnv where
  fileOk : Bool
  isBytecode : Bool
  relocOk : Bool

structure FlatResult where
  outcome : FlatLoadOutcome
  events : List FlatLoadEvent
  deriving DecidableEq

/-- Shallow embedding of `js_load`: after the file is loaded into a flat
buffer, `JS_IsBytecode` decides the branch — bytecode is relocated in place
and handed to `JS_LoadBytecode`; anything else is evaluated as JavaScript
source with `JS_Eval` and the buffer freed. -/
def js_load (env : FlatEnv) : FlatResult :=
  if env.fileOk = false then ⟨.errFileLoad, []⟩
  else if env.isBytecode = true then
    if env.relocOk = false then ⟨.errReloc, [.relocate, .freeBuffer]⟩
    else ⟨.loadedBytecode, [.relocate, .loadBytecodeCall]⟩
  else ⟨.evaluatedSource, [.evalSource, .freeBuffer]⟩

/-- C7: for every flat in-memory buffer, the loader takes exactly one of the
two branches, decided solely by the container sniff: a buffer recognised as
bytecode is relocated and then loaded as bytecode and is never evaluated as
source; a buffer not recognised is parsed and evaluated as raw JavaScript
source and is never relocated or loaded as bytecode. -/
theorem js_load_sniff_decides_branch (env : FlatEnv) (hfile : env.fileOk = true) :
    (env.isBytecode = true ↔ FlatLoadEvent.relocate ∈ (js_load env).events) ∧
    (env.isBytecode = false ↔ FlatLoadEvent.evalSource ∈ (js_load env).events) ∧
    (env.isBytecode = true → FlatLoadEvent.evalSource ∉ (js_load env).events ∧
      (env.relocOk = true →
        (js_load env).events = [.relocate, .loadBytecodeCall] ∧
        (js_load env).outcome = .loadedBytecode)) ∧
    (env.isBytecode = false →
      (js_load env).events = [.evalSource, .freeBuffer] ∧
      (js_load env).outcome = .evaluatedSource ∧
      FlatLoadEvent.relocate ∉ (js_load env).events ∧
      FlatLoadEvent.loadBytecodeCall ∉ (js_load env).events) := by
  unfold js_load
  rw [if_neg (by simp [hfile])]
  by_cases hbc : env.isBytecode = true
  · rw [if_pos hbc]
    by_cases hrel : env.relocOk = false
    · rw [if_pos hrel]
      refine ⟨by simp [hbc], by simp [hbc], fun _ => ⟨by simp, fun h => ?_⟩, fun h => ?_⟩
      · rw [h] at hrel
        cases hrel
      · rw [h] at hbc
        cases hbc
    · rw [if_neg hrel]
      refine ⟨by simp [hbc], by simp [hbc], fun _ => ⟨by simp, fun _ => ⟨rfl, rfl⟩⟩, fun h => ?_⟩
      rw [h] at hbc
      cases hbc
  · rw [if_neg hbc]
    have hbf : env.isBytecode = false := by
      cases h : env.isBytecode
      · rfl
      · exact absurd h hbc
    refine ⟨by simp [hbf], by simp [hbf], fun h => absurd h hbc,
      fun _ => ⟨rfl, rfl, by simp, by simp⟩⟩

theorem js_load_sniff_decides_branch_witness :
    (js_load ⟨true, true, true⟩).events = [.relocate, .loadBytecodeCall] ∧
    (js_load ⟨true, true, true⟩).outcome = .loadedBytecode ∧
    FlatLoadEvent.evalSource ∉ (js_load ⟨true, true, true⟩).events :=
  ⟨(((js_load_sniff_decides_branch ⟨true, true, true⟩ rfl).2.2.1 rfl).2 rfl).1,
    (((js_load_sniff_decides_branch ⟨true, true, true⟩ rfl).2.2.1 rfl).2 rfl).2,
    ((js_load_sniff_decides_branch ⟨true, true, true⟩ rfl).2.2.1 rfl).1⟩

/-! ## LED colour clamping (`js_freebutton_led_setColor`)

Shallow embedding of `js_freebutton_led_setColor` (`freebutton_led.c`): after
the four arguments are converted with `JS_ToInt32`, each colour component is
clamped to 0..255 and the clamped values are passed to `led_hw_set_color`. -/

/-- The clamp applied to each colour component in
`js_freebutton_led_setColor`: `(x < 0) ? 0 : (x > 255) ? 255 : x`. -/
def clampComponent (x : Int) : Int := if x < 0 then 0 else if x > 255 then 255 else x

/-- Shallow embedding of `js_freebutton_led_setColor`'s successful path: the
quadruple of arguments passed to `led_hw_set_color` once the four
`JS_ToInt32` conversions succeeded (position is forwarded unclamped; each
colour component is clamped to 0..255). -/
def js_freebutton_led_setColor (position r g b : Int) : Int × Int × Int × Int :=
  (position, clampComponent r, clampComponent g, clampComponent b)

/-- C9: every red, green and blue component actually passed to the LED
hardware call is clamped into 0..255 — a component below 0 becomes 0, a
component above 255 becomes 255, and an in-range component passes through
unchanged (and the position argument is forwarded as given). -/
theorem js_freebutton_led_setColor_clamps (position r g b : Int) :
    (js_freebutton_led_setColor position r g b).1 = position ∧
    (∀ x : Int, 0 ≤ clampComponent x ∧ clampComponent x ≤ 255 ∧
      (x < 0 → clampComponent x = 0) ∧ (255 < x → clampComponent x = 255) ∧
      (0 ≤ x → x ≤ 255 → clampComponent x = x)) ∧
    (js_freebutton_led_setColor position r g b).2.1 = clampComponent r ∧
    (js_freebutton_led_setColor position r g b).2.2.1 = clampComponent g ∧
    (js_freebutton_led_setColor position r g b).2.2.2 = clampComponent b := by
  refine ⟨rfl, fun x => ?_, rfl, rfl, rfl⟩
  unfold clampComponent
  split
  · omega
  · split
    · omega
    · omega

theorem js_freebutton_led_setColor_clamps_witness :
    (js_freebutton_led_setColor 2 (-5) 300 128).1 = 2 ∧
    clampComponent (-5) = 0 ∧ clampComponent 300 = 255 ∧ clampComponent 128 = 128 ∧
    (js_freebutton_led_setColor 2 (-5) 300 128).2.1 = clampComponent (-5) ∧
    (js_freebutton_led_setColor 2 (-5) 300 128).2.2.1 = clampComponent 300 ∧
    (js_freebutton_led_setColor 2 (-5) 300 128).2.2.2 = clampComponent 128 :=
  ⟨(js_freebutton_led_setColor_clamps 2 (-5) 300 128).1,
    ((js_freebutton_led_setColor_clamps 2 (-5) 300 128).2.1 (-5)).2.2.1 (by decide),
    ((js_freebutton_led_setColor_clamps 2 (-5) 300 128).2.1 300).2.2.2.1 (by decide),
    ((js_freebutton_led_setColor_clamps 2 (-5) 300 128).2.1 128).2.2.2.2 (by decide) (by decide),
    (js_freebutton_led_setColor_clamps 2 (-5) 300 128).2.2.1,
    (js_freebutton_led_setColor_clamps 2 (-5) 300 128).2.2.2.1,
    (js_freebutton_led_setColor_clamps 2 (-5) 300 128).2.2.2.2⟩

/-! ## Compile-to-bytecode pipeline (`compile_js_to_bytecode`)

Shallow embedding of `compile_js_to_bytecode` (`emscripten_wrapper.c`).  The
environment captures the results of the external engine calls
(`JS_NewContext`, `JS_Parse`, `JS_PrepareBytecode64to32`,
`JS_RelocateBytecode`, `JS_RelocateBytecode2`), the data lengths they
produce, and the collected ROM atoms; the function is the exact branch
structure of the C code.  It returns the C function's return value together
with the value of the global `bytecode_size` after the call (which is what
`get_bytecode_size` reports). -/

/-- `MAX_BYTECODE_SIZE` from `emscripten_wrapper.c`. -/
def MAX_BYTECODE_SIZE : Nat := 1024 * 1024

/-- Size in bytes of one serialized ROM translation table entry
(`bytecode_offset: u32, rom_index: u16, padding: u16`). -/
def ROM_ENTRY_SIZE : Nat := 8

/-- Modelled from the spec: `sizeof(JSBytecodeHeader32)` — the 32-bit
container header declared in `mquickjs.h` (not part of this repository). -/
def JS_HDR32_SIZE : Nat := 16

/-- A collected ROM atom before sorting: the byte offset of the slot in the
data section and the index of the matching entry in the well-known ROM atom
table (`ROMAtomTableBuilder` in `emscripten_wrapper.c`). -/
structure ROMAtomTableBuilder where
  offset : Nat
  rom_index : Nat
  deriving DecidableEq

/-- Results of the external engine calls made by `compile_js_to_bytecode`,
together with the data lengths and ROM atoms they produce. -/
structure CompileEnv where
  ctxOk : Bool
  parseOk : Bool
  jsw8 : Bool
  use32bit : Bool
  prep32Ok : Bool
  dataLen32 : Nat
  reloc32Ok : Bool
  dataLen : Nat
  romAtoms : List ROMAtomTableBuilder
  romRelocOk : Bool

/-- Shallow embedding of `compile_js_to_bytecode`: returns the pair of the C
return value (bytecode size on success, -1 on error) and the global
`bytecode_size` after the call.  `bytecode_size` is reset to 0 on entry and
only assigned its final value after every check of the taken path has
passed. -/
def compile_js_to_bytecode (env : CompileEnv) : Int × Nat :=
  if env.ctxOk = false then (-1, 0)
  else if env.parseOk = false then (-1, 0)
  else if env.jsw8 = true ∧ env.use32bit = true then
    if env.prep32Ok = false then (-1, 0)
    else if JS_HDR32_SIZE + env.dataLen32 > MAX_BYTECODE_SIZE then (-1, 0)
    else if env.reloc32Ok = false then (-1, 0)
    else (((JS_HDR32_SIZE + env.dataLen32 : Nat) : Int), JS_HDR32_SIZE + env.dataLen32)
  else
    if JS_HDR_SIZE + env.dataLen > MAX_BYTECODE_SIZE then (-1, 0)
    else if env.romAtoms.length > 0 then
      if JS_HDR_SIZE + env.dataLen + env.romAtoms.length * ROM_ENTRY_SIZE
          > MAX_BYTECODE_SIZE then (-1, 0)
      else if env.romRelocOk = false then (-1, 0)
      else
        (((JS_HDR_SIZE + env.romAtoms.length * ROM_ENTRY_SIZE + env.dataLen : Nat) : Int),
          JS_HDR_SIZE + env.romAtoms.length * ROM_ENTRY_SIZE + env.dataLen)
    else (((JS_HDR_SIZE + env.dataLen : Nat) : Int), JS_HDR_SIZE + env.dataLen)

/-- C6: compilation-and-relocation is atomic in its observable output — on
every error path (context creation, parse, width conversion, size overflow,
either relocation failure) `compile_js_to_bytecode` returns -1 and the
reported `bytecode_size` stays 0, so no partially built container is ever
exposed; and every non-error return reports exactly the final
`bytecode_size`, which is positive. -/
theorem compile_js_to_bytecode_atomic (env : CompileEnv) :
    ((compile_js_to_bytecode env).1 = -1 → (compile_js_to_bytecode env).2 = 0) ∧
    ((compile_js_to_bytecode env).1 ≠ -1 →
      (compile_js_to_bytecode env).1 = ((compile_js_to_bytecode env).2 : Int) ∧
      0 < (compile_js_to_bytecode env).2) := by
  unfold compile_js_to_bytecode
  have hhdr : (0 : Nat) < JS_HDR_SIZE := by decide
  have hhdr32 : (0 : Nat) < JS_HDR32_SIZE := by decide
  split
  · exact ⟨fun _ => rfl, fun h => absurd rfl h⟩
  · split
    · exact ⟨fun _ => rfl, fun h => absurd rfl h⟩
    · split
      · split
        · exact ⟨fun _ => rfl, fun h => absurd rfl h⟩
        · split
          · exact ⟨fun _ => rfl, fun h => absurd rfl h⟩
          · split
            · exact ⟨fun _ => rfl, fun h => absurd rfl h⟩
            · exact ⟨fun h => absurd h (by simp; omega), fun _ => ⟨rfl, by omega⟩⟩
      · split
        · exact ⟨fun _ => rfl, fun h => absurd rfl h⟩
        · split
          · split
            · exact ⟨fun _ => rfl, fun h => absurd rfl h⟩
            · split
              · exact ⟨fun _ => rfl, fun h => absurd rfl h⟩
              · exact ⟨fun h => absurd h (by simp; omega), fun _ => ⟨rfl, by omega⟩⟩
          · exact ⟨fun h => absurd h (by simp; omega), fun _ => ⟨rfl, by omega⟩⟩

theorem compile_js_to_bytecode_atomic_witness :
    (compile_js_to_bytecode
        { ctxOk := true, parseOk := false, jsw8 := false, use32bit := false,
          prep32Ok := true, dataLen32 := 0, reloc32Ok := true, dataLen := 0,
          romAtoms := [], romRelocOk := true }).1 = -1 ∧
    (compile_js_to_bytecode
        { ctxOk := true, parseOk := false, jsw8 := false, use32bit := false,
          prep32Ok := true, dataLen32 := 0, reloc32Ok := true, dataLen := 0,
          romAtoms := [], romRelocOk := true }).2 = 0 :=
  ⟨by decide,
    (compile_js_to_bytecode_atomic
      { ctxOk := true, parseOk := false, jsw8 := false, use32bit := false,
        prep32Ok := true, dataLen32 := 0, reloc32Ok := true, dataLen := 0,
        romAtoms := [], romRelocOk := true }).1 (by decide)⟩

/-! ## ROM atom translation table: sort order (`compare_offset`, `build_rom_atom_table`)

`build_rom_atom_table` collects ROM atoms via the engine's traversal and then
sorts them with `qsort(table, rom_count, sizeof, compare_offset)`.  The
collected list is an input here; `qsort`'s contract (a permutation of the
input, sorted with respect to the comparator) is modelled by insertion
sort with the total preorder induced by `compare_offset`. -/

/-- The ordering established by the `compare_offset` comparator from
`emscripten_wrapper.c`: ascending by slot offset. -/
def compare_offset (a b : ROMAtomTableBuilder) : Prop := a.offset ≤ b.offset

instance : DecidableRel compare_offset := fun a b => Nat.decLe a.offset b.offset

instance : IsTotal ROMAtomTableBuilder compare_offset :=
  ⟨fun a b => Nat.le_total a.offset b.offset⟩

instance : IsTrans ROMAtomTableBuilder compare_offset :=
  ⟨fun _ _ _ => Nat.le_trans⟩

/-- The sorting step of `build_rom_atom_table`: the collected ROM atoms are
sorted ascending by offset (the `qsort` call with `compare_offset`). -/
def build_rom_atom_table (collected : List ROMAtomTableBuilder) :
    List ROMAtomTableBuilder :=
  List.insertionSort compare_offset collected

/-- A serialized ROM translation table entry
(`ROMAtomEntry`: `bytecode_offset: u32, rom_index: u16, padding: u16`). -/
structure ROMAtomEntry where
  bytecode_offset : Nat
  rom_index : Nat
  padding : Nat
  deriving DecidableEq

/-- The emitted ROM translation table: entry `i` is written from the `i`-th
sorted ROM atom, with `padding = 0` (the write loop of
`compile_js_to_bytecode`). -/
def emitRomTable (collected : List ROMAtomTableBuilder) : List ROMAtomEntry :=
  (build_rom_atom_table collected).map (fun a => ⟨a.offset, a.rom_index, 0⟩)

/-- C3: for every collected set of ROM atoms, the emitted ROM translation
table is sorted ascending by `bytecode_offset`: every pair of adjacent
entries `i` and `i+1` satisfies `offset i ≤ offset (i+1)`. -/
theorem emitRomTable_sorted_ascending (collected : List ROMAtomTableBuilder)
    (i : Nat) (h : i + 1 < (emitRomTable collected).length) :
    ((emitRomTable collected).get ⟨i, by omega⟩).bytecode_offset ≤
      ((emitRomTable collected).get ⟨i + 1, h⟩).bytecode_offset := by
  have hs : List.Sorted compare_offset (build_rom_atom_table collected) :=
    List.sorted_insertionSort compare_offset collected
  have hmap : List.Sorted (fun x y : ROMAtomEntry => x.bytecode_offset ≤ y.bytecode_offset)
      (emitRomTable collected) := by
    exact List.Pairwise.map _ (fun a b hab => hab) hs
  exact hmap.rel_get_of_lt (by exact Fin.mk_lt_mk.mpr (Nat.lt_succ_self i))

theorem emitRomTable_sorted_ascending_witness :
    0 + 1 < (emitRomTable [⟨5, 1⟩, ⟨3, 2⟩]).length ∧
    ((emitRomTable [⟨5, 1⟩, ⟨3, 2⟩]).get ⟨0, by decide⟩).bytecode_offset ≤
      ((emitRomTable [⟨5, 1⟩, ⟨3, 2⟩]).get ⟨0 + 1, by decide⟩).bytecode_offset :=
  ⟨by decide, emitRomTable_sorted_ascending [⟨5, 1⟩, ⟨3, 2⟩] 0 (by decide)⟩

/-! ## Save-time pass ordering: externalization before base rewrite

`compile_js_to_bytecode` runs the ROM-externalization traversal
(`build_rom_atom_table`, which replaces matching slots with symbolic ROM
indices) strictly before the base-address pointer rewrite (the
`JS_RelocateBytecode2` call after the ROM table is inserted).  The
slot-level behaviour of those traversals lives in `mquickjs.c`, outside this
repository, and is modelled from the spec below. -/

/-- A pointer-sized slot of the data section: a relocatable pointer, an
externalized symbolic ROM index, or non-pointer data. -/
inductive BCSlot where
  | ptr (addr : Nat)
  | romRef (idx : Nat)
  | raw (v : Nat)
  deriving DecidableEq

/-- Modelled from the spec: the externalization step of the save-time pass —
a string slot whose value matches an entry of the well-known symbol table is
replaced by its symbolic ROM index and thereby removed from the relocatable
pointer accounting; all other slots are untouched. -/
def externalizeSlot (wellKnown : Nat → Option Nat) (s : BCSlot) : BCSlot :=
  match s with
  | .ptr a =>
      match wellKnown a with
      | some idx => .romRef idx
      | none => .ptr a
  | s => s

/-- The externalization pass over all slots. -/
def externalizePass (wellKnown : Nat → Option Nat) (slots : List BCSlot) :
    List BCSlot :=
  slots.map (externalizeSlot wellKnown)

/-- Modelled from the spec: the base-address rewrite of the save-time pass —
every slot still holding a relocatable pointer is adjusted by the base
difference; externalized slots hold symbolic indices, not addresses, and are
not pointer slots. -/
def baseRewritePass (delta : Nat) (slots : List BCSlot) : List BCSlot :=
  slots.map (fun s => match s with | .ptr a => .ptr (a + delta) | s => s)

/-- The save-time relocation pass in the order `compile_js_to_bytecode`
performs it: the externalization traversal first, the base-address rewrite
second. -/
def relocate_for_storage (wellKnown : Nat → Option Nat) (delta : Nat)
    (slots : List BCSlot) : List BCSlot :=
  baseRewritePass delta (externalizePass wellKnown slots)

/-- C5: in the save-time pass, externalization completes before the
base-address rewrite (the pass is exactly the rewrite applied to the result
of the externalization), and a slot externalized to a symbolic ROM index is
never subsequently adjusted as a relocatable pointer: it still holds the very
same symbolic index in the pass's final output. -/
theorem relocate_for_storage_externalize_first (wellKnown : Nat → Option Nat)
    (delta : Nat) (slots : List BCSlot) :
    relocate_for_storage wellKnown delta slots
      = baseRewritePass delta (externalizePass wellKnown slots) ∧
    (∀ (i : Nat) (idx : Nat),
      (externalizePass wellKnown slots)[i]? = some (.romRef idx) →
      (relocate_for_storage wellKnown delta slots)[i]? = some (.romRef idx)) := by
  refine ⟨rfl, fun i idx h => ?_⟩
  unfold relocate_for_storage baseRewritePass
  rw [List.getElem?_map, h]
  rfl

theorem relocate_for_storage_externalize_first_witness :
    (relocate_for_storage (fun a => if a = 5 then some 3 else none) 10
        [.ptr 5, .ptr 7]
      = baseRewritePass 10 (externalizePass
          (fun a => if a = 5 then some 3 else none) [.ptr 5, .ptr 7])) ∧
    (relocate_for_storage (fun a => if a = 5 then some 3 else none) 10
        [.ptr 5, .ptr 7])[0]? = some (.romRef 3) :=
  ⟨(relocate_for_storage_externalize_first
      (fun a => if a = 5 then some 3 else none) 10 [.ptr 5, .ptr 7]).1,
    (relocate_for_storage_externalize_first
      (fun a => if a = 5 then some 3 else none) 10 [.ptr 5, .ptr 7]).2 0 3 (by decide)⟩


/-! ## Container emission and byte layout (`compile_js_to_bytecode`, v1/v2)

The native path of `compile_js_to_bytecode` assembles the output buffer:
header, then (v2 only) the ROM translation table, then the data section.
When at least one ROM atom was found the header is upgraded to version
0x0002 with `rom_atom_count` set and the table inserted between header and
data; otherwise the buffer stays version 0x0001 with the data section
directly after the header.  The header field layout itself comes from
`mquickjs.h` (not in this repository) and is modelled from the spec as four
little-endian 32-bit fields; the table entry layout is the spec's bit-exact
`{bytecode_offset: u32, rom_index: u16, padding: u16}`. -/

def JS_BYTECODE_VERSION : Nat := 1

def JS_BYTECODE_VERSION_32_V2 : Nat := 2

/-- Little-endian 16-bit serialization of a value. -/
def le16 (n : Nat) : List Nat := [n % 256, n / 256 % 256]

/-- Little-endian 32-bit serialization of a value. -/
def le32 (n : Nat) : List Nat :=
  [n % 256, n / 256 % 256, n / 65536 % 256, n / 16777216 % 256]

/-- Read a little-endian 16-bit value from the head of a byte list. -/
def readLE16 (l : List Nat) : Nat :=
  match l with
  | b0 :: b1 :: _ => b0 + 256 * b1
  | _ => 0

/-- Read a little-endian 32-bit value from the head of a byte list. -/
def readLE32 (l : List Nat) : Nat :=
  match l with
  | b0 :: b1 :: b2 :: b3 :: _ => b0 + 256 * b1 + 65536 * b2 + 16777216 * b3
  | _ => 0

/-- Modelled from the spec: the fixed-size container header
(`JSBytecodeHeader` in `mquickjs.h`, not in this repository) with the fields
the claims concern. -/
structure JSBytecodeHeader where
  version : Nat
  base_addr : Nat
  rom_atom_count : Nat
  reserved : Nat
  deriving DecidableEq

/-- Modelled from the spec: byte serialization of the fixed-size header. -/
def serializeHeader (h : JSBytecodeHeader) : List Nat :=
  le32 h.version ++ le32 h.base_addr ++ le32 h.rom_atom_count ++ le32 h.reserved

theorem serializeHeader_length (h : JSBytecodeHeader) :
    (serializeHeader h).length = JS_HDR_SIZE := rfl

/-- Byte serialization of one ROM table entry (spec §6, bit-exact). -/
def serializeEntry (e : ROMAtomEntry) : List Nat :=
  le32 e.bytecode_offset ++ le16 e.rom_index ++ le16 e.padding

theorem readLE32_cons (b0 b1 b2 b3 : Nat) (l : List Nat) :
    readLE32 (b0 :: b1 :: b2 :: b3 :: l) = b0 + 256 * b1 + 65536 * b2 + 16777216 * b3 := rfl

theorem readLE16_cons (b0 b1 : Nat) (l : List Nat) :
    readLE16 (b0 :: b1 :: l) = b0 + 256 * b1 := rfl

theorem drop4_cons (b0 b1 b2 b3 : Nat) (l : List Nat) :
    List.drop 4 (b0 :: b1 :: b2 :: b3 :: l) = l := rfl

theorem drop6_cons (b0 b1 b2 b3 b4 b5 : Nat) (l : List Nat) :
    List.drop 6 (b0 :: b1 :: b2 :: b3 :: b4 :: b5 :: l) = l := rfl

theorem drop8_cons (b0 b1 b2 b3 b4 b5 b6 b7 : Nat) (l : List Nat) :
    List.drop 8 (b0 :: b1 :: b2 :: b3 :: b4 :: b5 :: b6 :: b7 :: l) = l := rfl

theorem drop12_cons (b0 b1 b2 b3 b4 b5 b6 b7 b8 b9 b10 b11 : Nat) (l : List Nat) :
    List.drop 12 (b0 :: b1 :: b2 :: b3 :: b4 :: b5 :: b6 :: b7 :: b8 :: b9 :: b10 :: b11 :: l)
      = l := rfl

/-- Decode the header fields from the first `JS_HDR_SIZE` bytes. -/
def parseHeader (bytes : List Nat) : JSBytecodeHeader :=
  { version := readLE32 bytes,
    base_addr := readLE32 (bytes.drop 4),
    rom_atom_count := readLE32 (bytes.drop 8),
    reserved := readLE32 (bytes.drop 12) }

/-- Decode `n` ROM table entries from the head of a byte list, returning the
entries and the remaining bytes (the data section). -/
def parseEntries : Nat → List Nat → List ROMAtomEntry × List Nat
  | 0, rest => ([], rest)
  | n + 1, rest =>
      (⟨readLE32 rest, readLE16 (rest.drop 4), readLE16 (rest.drop 6)⟩
          :: (parseEntries n (rest.drop 8)).1,
        (parseEntries n (rest.drop 8)).2)

/-- Decode a container buffer the way a loader does: read the header, read a
ROM table of `rom_atom_count` entries only when the version says v2, and
treat the remainder as the data section. -/
def parseContainer (bytes : List Nat) : JSBytecodeHeader × List ROMAtomEntry × List Nat :=
  if (parseHeader bytes).version = JS_BYTECODE_VERSION_32_V2 then
    (parseHeader bytes,
      (parseEntries (parseHeader bytes).rom_atom_count (bytes.drop JS_HDR_SIZE)).1,
      (parseEntries (parseHeader bytes).rom_atom_count (bytes.drop JS_HDR_SIZE)).2)
  else (parseHeader bytes, [], bytes.drop JS_HDR_SIZE)

/-- The v2-upgraded header written by `compile_js_to_bytecode` when ROM atoms
were found: version 0x0002, `rom_atom_count` set, `reserved` zeroed,
`base_addr` reset to 0 (position-independent). -/
def v2Header (count : Nat) : JSBytecodeHeader :=
  { version := JS_BYTECODE_VERSION_32_V2, base_addr := 0,
    rom_atom_count := count, reserved := 0 }

/-- The container-assembly step of `compile_js_to_bytecode`'s native path:
with at least one collected ROM atom the header is upgraded to v2 and the
sorted ROM table is written between header and data; with none the v1 header
is followed directly by the data section.  `data` stands for the data
section bytes after the engine's in-place pointer adjustment (which
preserves length). -/
def assembleContainer (hdr0 : JSBytecodeHeader) (atoms : List ROMAtomTableBuilder)
    (data : List Nat) : JSBytecodeHeader × List Nat :=
  if 0 < atoms.length then
    (v2Header atoms.length,
      serializeHeader (v2Header atoms.length)
        ++ ((emitRomTable atoms).map serializeEntry).flatten ++ data)
  else (hdr0, serializeHeader hdr0 ++ data)

theorem parseHeader_serializeHeader (h : JSBytecodeHeader) (rest : List Nat)
    (h1 : h.version < 2 ^ 32) (h2 : h.base_addr < 2 ^ 32)
    (h3 : h.rom_atom_count < 2 ^ 32) (h4 : h.reserved < 2 ^ 32) :
    parseHeader (serializeHeader h ++ rest) = h := by
  obtain ⟨v, b, c, d⟩ := h
  dsimp only at h1 h2 h3 h4
  simp only [serializeHeader, le32, List.cons_append, List.nil_append]
  simp only [parseHeader, readLE32_cons, drop4_cons, drop8_cons, drop12_cons,
    JSBytecodeHeader.mk.injEq]
  omega

theorem parseEntries_roundtrip (tbl : List ROMAtomEntry) (rest : List Nat)
    (hb : ∀ e ∈ tbl, e.bytecode_offset < 2 ^ 32 ∧ e.rom_index < 2 ^ 16 ∧ e.padding < 2 ^ 16) :
    parseEntries tbl.length ((tbl.map serializeEntry).flatten ++ rest) = (tbl, rest) := by
  induction tbl with
  | nil => simp [parseEntries]
  | cons e tbl ih =>
      obtain ⟨o, ri, p⟩ := e
      have he := hb ⟨o, ri, p⟩ (by simp)
      dsimp only at he
      obtain ⟨heo, heri, hep⟩ := he
      simp only [List.map_cons, List.flatten_cons, List.length_cons, List.append_assoc]
      simp only [serializeEntry, le32, le16, List.cons_append, List.nil_append]
      simp only [parseEntries, readLE32_cons, readLE16_cons, drop4_cons, drop6_cons, drop8_cons]
      rw [ih (fun x hx => hb x (by simp [hx]))]
      have ho : o % 256 + 256 * (o / 256 % 256) + 65536 * (o / 65536 % 256)
          + 16777216 * (o / 16777216 % 256) = o := by omega
      have hri : ri % 256 + 256 * (ri / 256 % 256) = ri := by omega
      have hp : p % 256 + 256 * (p / 256 % 256) = p := by omega
      rw [ho, hri, hp]

/-- C4: the emitted container's `version` field and its byte layout agree —
when at least one ROM atom was collected the header is upgraded to v2, its
`rom_atom_count` equals exactly the number of table entries physically
written immediately after the header, and decoding the emitted bytes returns
that header, that table, and the data section following the table; when no
ROM atom was collected the container stays v1 and decoding finds no ROM
table, with the data section directly after the header. -/
theorem assembleContainer_version_layout (hdr0 : JSBytecodeHeader)
    (atoms : List ROMAtomTableBuilder) (data : List Nat)
    (hv : hdr0.version = JS_BYTECODE_VERSION)
    (h2 : hdr0.base_addr < 2 ^ 32) (h3 : hdr0.rom_atom_count < 2 ^ 32)
    (h4 : hdr0.reserved < 2 ^ 32)
    (hatoms : ∀ a ∈ atoms, a.offset < 2 ^ 32 ∧ a.rom_index < 2 ^ 16)
    (hcount : atoms.length < 2 ^ 32) :
    (0 < atoms.length →
      (assembleContainer hdr0 atoms data).1.version = JS_BYTECODE_VERSION_32_V2 ∧
      (assembleContainer hdr0 atoms data).1.rom_atom_count = (emitRomTable atoms).length ∧
      parseContainer (assembleContainer hdr0 atoms data).2
        = ((assembleContainer hdr0 atoms data).1, emitRomTable atoms, data)) ∧
    (atoms.length = 0 →
      (assembleContainer hdr0 atoms data).1.version = JS_BYTECODE_VERSION ∧
      parseContainer (assembleContainer hdr0 atoms data).2 = (hdr0, [], data)) := by
  have hlen : (emitRomTable atoms).length = atoms.length := by
    simp [emitRomTable, build_rom_atom_table, List.length_insertionSort]
  have htblb : ∀ e ∈ emitRomTable atoms,
      e.bytecode_offset < 2 ^ 32 ∧ e.rom_index < 2 ^ 16 ∧ e.padding < 2 ^ 16 := by
    intro e he
    simp only [emitRomTable, List.mem_map] at he
    obtain ⟨a, ha, rfl⟩ := he
    have ham : a ∈ atoms :=
      (List.perm_insertionSort compare_offset atoms).mem_iff.mp ha
    refine ⟨(hatoms a ham).1, (hatoms a ham).2, ?_⟩
    show (0 : Nat) < 2 ^ 16
    decide
  constructor
  · intro hpos
    unfold assembleContainer
    rw [if_pos hpos]
    refine ⟨rfl, hlen.symm, ?_⟩
    dsimp only
    rw [List.append_assoc]
    unfold parseContainer
    have hph := parseHeader_serializeHeader (v2Header atoms.length)
      (((emitRomTable atoms).map serializeEntry).flatten ++ data)
      (by show (2 : Nat) < 2 ^ 32; decide) (by show (0 : Nat) < 2 ^ 32; decide)
      hcount (by show (0 : Nat) < 2 ^ 32; decide)
    rw [hph,
      if_pos (show (v2Header atoms.length).version = JS_BYTECODE_VERSION_32_V2 from rfl),
      List.drop_left' (serializeHeader_length _)]
    simp only [v2Header]
    rw [← hlen, parseEntries_roundtrip (emitRomTable atoms) data htblb]
  · intro hzero
    unfold assembleContainer
    rw [if_neg (by omega)]
    refine ⟨hv, ?_⟩
    dsimp only
    unfold parseContainer
    have hph := parseHeader_serializeHeader hdr0 data (by rw [hv]; decide) h2 h3 h4
    rw [hph, if_neg (by rw [hv]; decide), List.drop_left' (serializeHeader_length _)]

theorem assembleContainer_version_layout_witness :
    (assembleContainer ⟨1, 0, 0, 0⟩ [⟨4, 2⟩] [9]).1.version = JS_BYTECODE_VERSION_32_V2 ∧
    (assembleContainer ⟨1, 0, 0, 0⟩ [⟨4, 2⟩] [9]).1.rom_atom_count
      = (emitRomTable [⟨4, 2⟩]).length ∧
    parseContainer (assembleContainer ⟨1, 0, 0, 0⟩ [⟨4, 2⟩] [9]).2
      = ((assembleContainer ⟨1, 0, 0, 0⟩ [⟨4, 2⟩] [9]).1, emitRomTable [⟨4, 2⟩], [9]) :=
  (assembleContainer_version_layout ⟨1, 0, 0, 0⟩ [⟨4, 2⟩] [9] rfl (by decide) (by decide)
    (by decide) (by decide) (by decide)).1 (by decide)

/-! ## Sensor onChange callback registry (`js_freebutton_sensor_onChange`)

Shallow embedding of the sensor binding's callback registry
(`js_sensor_callbacks`, 8 slots) and of `js_freebutton_sensor_onChange`.
GC references are modelled by a per-slot reference count: `JS_AddGCRef`
increments it, `JS_DeleteGCRef` decrements it; the stored callback value is
an opaque identifier. -/

def MAX_SENSORS : Nat := 8

/-- One entry of `js_sensor_callbacks`: the allocation flag, the number of
live GC references held for the slot, and the stored callback value. -/
structure SensorSlot where
  allocated : Bool
  refCount : Nat
  callback : Nat
  deriving DecidableEq

/-- The global callback registry: one slot per sensor id. -/
structure SensorCbState where
  slots : Fin 8 → SensorSlot

/-- The registry invariant: a slot's `allocated` flag corresponds to exactly
one live callback reference (and an unallocated slot holds none). -/
def SlotInv (st : SensorCbState) : Prop :=
  ∀ i : Fin 8, (st.slots i).refCount = if (st.slots i).allocated = true then 1 else 0

instance (st : SensorCbState) : Decidable (SlotInv st) :=
  inferInstanceAs (Decidable (∀ i : Fin 8,
    (st.slots i).refCount = if (st.slots i).allocated = true then 1 else 0))

/-- GC-visible actions of an `onChange` registration, in program order. -/
inductive OnChangeEvent where
  | deleteRef (i : Fin 8)
  | addRef (i : Fin 8)
  | registerHw (i : Fin 8)
  deriving DecidableEq

inductive OnChangeResult where
  | typeError
  | rangeError
  | ok
  deriving DecidableEq

/-- The in-range body of `js_freebutton_sensor_onChange`: if the slot already
holds a callback, delete its GC reference and clear the flag first; then add
a GC reference storing the new callback, set the flag, and register the C
wrapper with the hardware layer. -/
def onChangeAt (st : SensorCbState) (i : Fin 8) (cb : Nat) :
    SensorCbState × List OnChangeEvent :=
  if (st.slots i).allocated = true then
    (⟨Function.update
        (Function.update st.slots i
          ⟨false, (st.slots i).refCount - 1, (st.slots i).callback⟩) i
        ⟨true,
          ((Function.update st.slots i
            ⟨false, (st.slots i).refCount - 1, (st.slots i).callback⟩) i).refCount + 1, cb⟩⟩,
      [.deleteRef i, .addRef i, .registerHw i])
  else
    (⟨Function.update st.slots i ⟨true, (st.slots i).refCount + 1, cb⟩⟩,
      [.addRef i, .registerHw i])

/-- Shallow embedding of `js_freebutton_sensor_onChange`: argument-count and
callback-type checks, the 0..7 range check on the sensor id (RangeError and
no registry mutation when out of range), then the slot update. -/
def js_freebutton_sensor_onChange (st : SensorCbState) (argc : Nat) (sensorId : Int)
    (isFunc : Bool) (cb : Nat) : OnChangeResult × SensorCbState × List OnChangeEvent :=
  if argc < 2 then (.typeError, st, [])
  else if isFunc = false then (.typeError, st, [])
  else if h : sensorId < 0 ∨ 8 ≤ sensorId then (.rangeError, st, [])
  else
    ((.ok : OnChangeResult),
      (onChangeAt st ⟨sensorId.toNat, by omega⟩ cb).1,
      (onChangeAt st ⟨sensorId.toNat, by omega⟩ cb).2)

theorem onChangeAt_spec (st : SensorCbState) (i : Fin 8) (cb : Nat)
    (hinv : SlotInv st) :
    SlotInv (onChangeAt st i cb).1 ∧
    (onChangeAt st i cb).1.slots i = ⟨true, 1, cb⟩ ∧
    ((st.slots i).allocated = true →
      (onChangeAt st i cb).2 = [.deleteRef i, .addRef i, .registerHw i]) ∧
    ((st.slots i).allocated = false →
      (onChangeAt st i cb).2 = [.addRef i, .registerHw i]) := by
  have hrc := hinv i
  unfold onChangeAt
  by_cases hall : (st.slots i).allocated = true
  · rw [if_pos hall]
    rw [if_pos hall] at hrc
    refine ⟨?_, ?_, fun _ => rfl, fun hfa => by rw [hfa] at hall; cases hall⟩
    · intro j
      by_cases hj : j = i
      · subst hj
        simp [Function.update_same]
        omega
      · simp only [Function.update_noteq hj]
        exact hinv j
    · simp [Function.update_same, hrc]
  · rw [if_neg hall]
    have hfa : (st.slots i).allocated = false := by
      cases hx : (st.slots i).allocated
      · rfl
      · exact absurd hx hall
    rw [hfa] at hrc
    simp only [Bool.false_eq_true, if_false] at hrc
    refine ⟨?_, ?_, fun hta => absurd hta hall, fun _ => rfl⟩
    · intro j
      by_cases hj : j = i
      · subst hj
        simp [Function.update_same]
        omega
      · simp only [Function.update_noteq hj]
        exact hinv j
    · simp [Function.update_same, hrc]

theorem finOfIntCoe (v : Fin 8) (prf : ((v.val : Int)).toNat < 8) :
    (⟨((v.val : Int)).toNat, prf⟩ : Fin 8) = v := Fin.ext (by simp)

/-- C10: the sensor callback registry keeps at most one registered callback
per sensor id — a call with a sensor id outside 0..7 raises RangeError and
leaves the registry unchanged; an in-range call on a slot that already holds
a callback releases the old GC reference before storing the new one (the
delete event precedes the add event); and the per-slot invariant "the
allocated flag corresponds to exactly one live callback reference" is
preserved, with the slot ending allocated, holding one reference and the new
callback. -/
theorem js_freebutton_sensor_onChange_registry (st : SensorCbState) (argc : Nat)
    (isFunc : Bool) (cb : Nat) :
    (∀ sensorId : Int, 2 ≤ argc → isFunc = true → (sensorId < 0 ∨ 8 ≤ sensorId) →
      js_freebutton_sensor_onChange st argc sensorId isFunc cb = (.rangeError, st, [])) ∧
    (∀ i : Fin 8, 2 ≤ argc → isFunc = true → SlotInv st →
      (js_freebutton_sensor_onChange st argc (i.val : Int) isFunc cb).1 = .ok ∧
      SlotInv (js_freebutton_sensor_onChange st argc (i.val : Int) isFunc cb).2.1 ∧
      (js_freebutton_sensor_onChange st argc (i.val : Int) isFunc cb).2.1.slots i
        = ⟨true, 1, cb⟩ ∧
      ((st.slots i).allocated = true →
        (js_freebutton_sensor_onChange st argc (i.val : Int) isFunc cb).2.2
          = [.deleteRef i, .addRef i, .registerHw i]) ∧
      ((st.slots i).allocated = false →
        (js_freebutton_sensor_onChange st argc (i.val : Int) isFunc cb).2.2
          = [.addRef i, .registerHw i])) := by
  constructor
  · intro sensorId hargc hfunc hrange
    unfold js_freebutton_sensor_onChange
    rw [if_neg (by omega), if_neg (by simp [hfunc]), dif_pos hrange]
  · intro i hargc hfunc hinv
    have hrange : ¬((i.val : Int) < 0 ∨ 8 ≤ (i.val : Int)) := by
      have := i.isLt
      omega
    unfold js_freebutton_sensor_onChange
    rw [if_neg (by omega), if_neg (by simp [hfunc]), dif_neg hrange]
    rw [finOfIntCoe i]
    have hspec := onChangeAt_spec st i cb hinv
    exact ⟨rfl, hspec.1, hspec.2.1, hspec.2.2.1, hspec.2.2.2⟩

theorem js_freebutton_sensor_onChange_registry_witness :
    js_freebutton_sensor_onChange ⟨fun _ => ⟨false, 0, 0⟩⟩ 2 9 true 7
      = (.rangeError, ⟨fun _ => ⟨false, 0, 0⟩⟩, []) ∧
    (js_freebutton_sensor_onChange ⟨fun _ => ⟨false, 0, 0⟩⟩ 2
      (((3 : Fin 8)).val : Int) true 7).1 = .ok ∧
    SlotInv (js_freebutton_sensor_onChange ⟨fun _ => ⟨false, 0, 0⟩⟩ 2
      (((3 : Fin 8)).val : Int) true 7).2.1 ∧
    (js_freebutton_sensor_onChange ⟨fun _ => ⟨false, 0, 0⟩⟩ 2
      (((3 : Fin 8)).val : Int) true 7).2.1.slots 3 = ⟨true, 1, 7⟩ ∧
    (js_freebutton_sensor_onChange ⟨fun _ => ⟨false, 0, 0⟩⟩ 2
      (((3 : Fin 8)).val : Int) true 7).2.2 = [.addRef 3, .registerHw 3] :=
  ⟨(js_freebutton_sensor_onChange_registry ⟨fun _ => ⟨false, 0, 0⟩⟩ 2 true 7).1 9
      (by decide) rfl (by decide),
    ((js_freebutton_sensor_onChange_registry ⟨fun _ => ⟨false, 0, 0⟩⟩ 2 true 7).2 3
      (by decide) rfl (by decide)).1,
    ((js_freebutton_sensor_onChange_registry ⟨fun _ => ⟨false, 0, 0⟩⟩ 2 true 7).2 3
      (by decide) rfl (by decide)).2.1,
    ((js_freebutton_sensor_onChange_registry ⟨fun _ => ⟨false, 0, 0⟩⟩ 2 true 7).2 3
      (by decide) rfl (by decide)).2.2.1,
    ((js_freebutton_sensor_onChange_registry ⟨fun _ => ⟨false, 0, 0⟩⟩ 2 true 7).2 3
      (by decide) rfl (by decide)).2.2.2.2 rfl⟩
